import Mathlib

/-!
Verification of the skill-bundle security scanner
(`skill-security-analyzer/scripts/security_scanner.py`).

The Python source is shallowly embedded: file contents are `List Char`,
regular-expression rules are embedded as executable matchers with the
backtracking (exists-a-split) semantics of the concrete patterns used by
the scanner, Python `str.find`-style results are `Int` with `-1` for
"not found", and code that can raise is modelled with `Except`.
Filesystem reads that may fail are modelled as `Option` contents.
-/

namespace SecurityScanner

/-- Python `str.isspace` characters relevant to `\s` in the scanner's
ASCII patterns: space, tab, newline, carriage return, vertical tab,
form feed. -/
def pyIsSpace (c : Char) : Bool :=
  c == ' ' || c == '\t' || c == '\n' || c == '\r' || c == '\x0b' || c == '\x0c'

/-- Identifier characters of the character class `[a-zA-Z0-9_]`. -/
def isIdentChar (c : Char) : Bool :=
  (('a' ≤ c && c ≤ 'z') || ('A' ≤ c && c ≤ 'Z') || ('0' ≤ c && c ≤ '9') || c == '_')

/-- First index at which `sub` occurs in `l` (Python `str.find`, as `Option`). -/
def findSubIdx (sub : List Char) : List Char → Option Nat
  | [] => if List.isPrefixOf sub [] then some 0 else none
  | c :: r =>
    if List.isPrefixOf sub (c :: r) then some 0
    else (findSubIdx sub r).map (· + 1)

/-- Python `str.find`: index of first occurrence or `-1`. -/
def pyFindInt (sub c : List Char) : Int :=
  match findSubIdx sub c with
  | some i => (i : Int)
  | none => -1

/-- Substring containment test (`sub in s` / `re.search` on a literal). -/
def containsSub (sub l : List Char) : Bool :=
  (findSubIdx sub l).isSome

/-- Search helper: does the predicate accept some suffix of the list?
This is the semantics of `re.search` for a pattern whose matcher at a
fixed start position is `p`. -/
def searchPos (p : List Char → Bool) : List Char → Bool
  | [] => p []
  | c :: r => p (c :: r) || searchPos p r

/-- 1-based line number of `pos` in `c`: newlines strictly before `pos`,
plus one (`content[:match.start()].count('\n') + 1`). -/
def lineNumber (c : List Char) (pos : Nat) : Nat :=
  (c.take pos).count '\n' + 1

/-- Python `str.strip()` on the left. -/
def pyStripLeft (l : List Char) : List Char := l.dropWhile pyIsSpace

/-- Python `str.strip()` on the right. -/
def pyStripRight (l : List Char) : List Char :=
  (l.reverse.dropWhile pyIsSpace).reverse

/-- Python `str.strip()`. -/
def pyStrip (l : List Char) : List Char := pyStripRight (pyStripLeft l)

/-- Severity levels used by the scanner. -/
inductive Severity
  | critical
  | high
  | medium
  | low
deriving DecidableEq

/-- One finding record, as appended to `self.findings`.  Findings that
the Python code builds without an `"evidence"` key get `none` here. -/
structure Finding where
  severity : Severity
  category : String
  title : String
  description : String
  location : String
  evidence : Option String
  impact : String
deriving DecidableEq

/-- The severity-count accumulator of `_generate_report`. -/
structure SevCounts where
  critical : Nat
  high : Nat
  medium : Nat
  low : Nat
deriving DecidableEq

/-- `severity_counts[finding['severity']] += 1`. -/
def bump (sc : SevCounts) : Severity → SevCounts
  | Severity.critical => { sc with critical := sc.critical + 1 }
  | Severity.high => { sc with high := sc.high + 1 }
  | Severity.medium => { sc with medium := sc.medium + 1 }
  | Severity.low => { sc with low := sc.low + 1 }

/-- Projection of a `SevCounts` at a severity. -/
def SevCounts.getSev (sc : SevCounts) : Severity → Nat
  | Severity.critical => sc.critical
  | Severity.high => sc.high
  | Severity.medium => sc.medium
  | Severity.low => sc.low

/-- The counting loop of `_generate_report`. -/
def severityCounts (fs : List Finding) : SevCounts :=
  fs.foldl (fun sc f => bump sc f.severity) ⟨0, 0, 0, 0⟩

/-- Declarative count of findings carrying severity `s`. -/
def countSev (s : Severity) (fs : List Finding) : Nat :=
  fs.countP (fun f => decide (f.severity = s))

/-- The risk/recommendation priority ladder of `_generate_report`. -/
def riskAndRec (sc : SevCounts) : String × String :=
  if sc.critical > 0 then ("CRITICAL", "REJECT")
  else if sc.high > 3 then ("HIGH", "REVIEW")
  else if sc.high > 0 then ("MEDIUM-HIGH", "REVIEW")
  else if sc.medium > 5 then ("MEDIUM", "REVIEW")
  else ("LOW", "APPROVE")

/-- The `summary` object of the report. -/
structure Summary where
  overall_risk : String
  total_findings : Nat
  critical : Nat
  high : Nat
  medium : Nat
  low : Nat
  recommendation : String
deriving DecidableEq

/-- The report, minus the wall-clock timestamp (pure data only). -/
structure Report where
  skill : String
  location : String
  scanner_version : String
  summary : Summary
  findings : List Finding
deriving DecidableEq

/-- `_generate_report`, as a function of the collected findings. -/
def generateReport (skill loc : String) (findings : List Finding) : Report :=
  let sc := severityCounts findings
  let rr := riskAndRec sc
  { skill := skill
    location := loc
    scanner_version := "1.0"
    summary :=
      { overall_risk := rr.1
        total_findings := findings.length
        critical := sc.critical
        high := sc.high
        medium := sc.medium
        low := sc.low
        recommendation := rr.2 }
    findings := findings }

lemma getSev_bump (sc : SevCounts) (s t : Severity) :
    (bump sc t).getSev s = sc.getSev s + (if t = s then 1 else 0) := by
  cases s <;> cases t <;> simp [bump, SevCounts.getSev]

lemma getSev_foldl (s : Severity) :
    ∀ (fs : List Finding) (acc : SevCounts),
      (fs.foldl (fun sc f => bump sc f.severity) acc).getSev s =
        acc.getSev s + countSev s fs := by
  intro fs
  induction fs with
  | nil => intro acc; simp [countSev]
  | cons f t ih =>
    intro acc
    simp only [List.foldl_cons, ih, countSev, List.countP_cons]
    rw [getSev_bump]
    by_cases h : f.severity = s
    · simp [h, countSev]; omega
    · simp [h, countSev]

lemma severityCounts_getSev (s : Severity) (fs : List Finding) :
    (severityCounts fs).getSev s = countSev s fs := by
  unfold severityCounts
  rw [getSev_foldl]
  cases s <;> simp [SevCounts.getSev]

lemma severityCounts_critical (fs : List Finding) :
    (severityCounts fs).critical = countSev Severity.critical fs :=
  severityCounts_getSev Severity.critical fs

lemma severityCounts_high (fs : List Finding) :
    (severityCounts fs).high = countSev Severity.high fs :=
  severityCounts_getSev Severity.high fs

lemma severityCounts_medium (fs : List Finding) :
    (severityCounts fs).medium = countSev Severity.medium fs :=
  severityCounts_getSev Severity.medium fs

lemma severityCounts_low (fs : List Finding) :
    (severityCounts fs).low = countSev Severity.low fs :=
  severityCounts_getSev Severity.low fs

lemma countSev_total (fs : List Finding) :
    countSev Severity.critical fs + countSev Severity.high fs +
      countSev Severity.medium fs + countSev Severity.low fs = fs.length := by
  induction fs with
  | nil => simp [countSev]
  | cons f t ih =>
    simp only [countSev, List.countP_cons, List.length_cons] at *
    cases h : f.severity <;> simp [h] <;> omega

/-- C1: the report aggregator derives `overall_risk` and `recommendation`
by the exact first-match priority ladder over the severity counts of the
findings sequence: any CRITICAL wins (CRITICAL/REJECT), else HIGH count
above 3 (HIGH/REVIEW), else any HIGH (MEDIUM-HIGH/REVIEW), else MEDIUM
count above 5 (MEDIUM/REVIEW), else LOW/APPROVE. -/
theorem C1_risk_ladder (skill loc : String) (fs : List Finding) :
    let s := (generateReport skill loc fs).summary
    (0 < countSev Severity.critical fs →
        s.overall_risk = "CRITICAL" ∧ s.recommendation = "REJECT") ∧
    (countSev Severity.critical fs = 0 → 3 < countSev Severity.high fs →
        s.overall_risk = "HIGH" ∧ s.recommendation = "REVIEW") ∧
    (countSev Severity.critical fs = 0 → 0 < countSev Severity.high fs →
        countSev Severity.high fs ≤ 3 →
        s.overall_risk = "MEDIUM-HIGH" ∧ s.recommendation = "REVIEW") ∧
    (countSev Severity.critical fs = 0 → countSev Severity.high fs = 0 →
        5 < countSev Severity.medium fs →
        s.overall_risk = "MEDIUM" ∧ s.recommendation = "REVIEW") ∧
    (countSev Severity.critical fs = 0 → countSev Severity.high fs = 0 →
        countSev Severity.medium fs ≤ 5 →
        s.overall_risk = "LOW" ∧ s.recommendation = "APPROVE") := by
  have hc := severityCounts_critical fs
  have hh := severityCounts_high fs
  have hm := severityCounts_medium fs
  simp only [generateReport, riskAndRec]
  refine ⟨?_, ?_, ?_, ?_, ?_⟩ <;> intros <;>
    split_ifs <;> simp_all <;> omega

/-- Witness for C1 at a concrete findings list with one CRITICAL finding. -/
theorem C1_risk_ladder_witness :
    (0 < countSev Severity.critical
        [{ severity := Severity.critical, category := "Structure",
           title := "Missing SKILL.md",
           description := "Required SKILL.md file not found",
           location := "p", evidence := none,
           impact := "Skill cannot function without SKILL.md" }]) ∧
    ((generateReport "s" "p"
        [{ severity := Severity.critical, category := "Structure",
           title := "Missing SKILL.md",
           description := "Required SKILL.md file not found",
           location := "p", evidence := none,
           impact := "Skill cannot function without SKILL.md" }]).summary.overall_risk
      = "CRITICAL" ∧
     (generateReport "s" "p"
        [{ severity := Severity.critical, category := "Structure",
           title := "Missing SKILL.md",
           description := "Required SKILL.md file not found",
           location := "p", evidence := none,
           impact := "Skill cannot function without SKILL.md" }]).summary.recommendation
      = "REJECT") :=
  ⟨by decide, (C1_risk_ladder "s" "p" _).1 (by decide)⟩

/-- C2: in every generated report, the per-severity counts in the summary
sum to `total_findings`, which equals the length of the report's findings
sequence, and each per-severity count equals the number of findings in
that sequence carrying that severity. -/
theorem C2_counts_invariant (skill loc : String) (fs : List Finding) :
    let r := generateReport skill loc fs
    r.summary.critical + r.summary.high + r.summary.medium + r.summary.low
        = r.summary.total_findings ∧
    r.summary.total_findings = r.findings.length ∧
    r.summary.critical = countSev Severity.critical r.findings ∧
    r.summary.high = countSev Severity.high r.findings ∧
    r.summary.medium = countSev Severity.medium r.findings ∧
    r.summary.low = countSev Severity.low r.findings := by
  refine ⟨?_, rfl, severityCounts_critical fs, severityCounts_high fs,
    severityCounts_medium fs, severityCounts_low fs⟩
  show (severityCounts fs).critical + (severityCounts fs).high +
      (severityCounts fs).medium + (severityCounts fs).low = fs.length
  rw [severityCounts_critical, severityCounts_high, severityCounts_medium,
    severityCounts_low]
  exact countSev_total fs

/-- One regex match as produced by `re.finditer`: the full matched text
(`match.group(0)`) and the match start offset. -/
structure SMatch where
  text : List Char
  mstart : Nat
deriving DecidableEq

/-- The placeholder words of `_check_hardcoded_secrets`. -/
def placeholders : List (List Char) :=
  ["example".toList, "placeholder".toList, "your_".toList,
   "xxx".toList, "test".toList]

/-- `any(placeholder in matched_text.lower() for placeholder in [...])`. -/
def isPlaceholderText (t : List Char) : Bool :=
  placeholders.any (fun p => containsSub p (t.map Char.toLower))

/-- The fixed redaction marker used as `evidence` for secret findings. -/
def redactionMarker : String := "*** (redacted for security)"

/-- Per-match body of the `_check_hardcoded_secrets` loop: skip clear
placeholders, otherwise emit one HIGH "Hardcoded Secrets" finding with
the fixed redaction marker as evidence. -/
def emitSecret (c : List Char) (fp desc : String) (m : SMatch) : Option Finding :=
  if isPlaceholderText m.text then none
  else
    some
      { severity := Severity.high
        category := "Hardcoded Secrets"
        title := desc
        description := "Hardcoded credential found in source code"
        location := fp ++ ":" ++ toString (lineNumber c m.mstart)
        evidence := some redactionMarker
        impact := "Credentials could be exposed to anyone with access to skill files" }

/-- `_check_hardcoded_secrets`, parameterised by the per-pattern match
lists that `re.finditer` yields for the secret patterns. -/
def checkHardcodedSecrets (c : List Char) (pats : List (String × List SMatch))
    (fp : String) : List Finding :=
  pats.flatMap (fun pr => pr.2.filterMap (emitSecret c fp pr.1))

/-- C5: every Hardcoded Secrets finding carries the fixed redaction
marker as its evidence, never text derived from the source; hence for
any two scripts differing only in the matched secret literal the
emitted findings have identical evidence fields. -/
theorem C5_evidence_redacted (c : List Char) (pats : List (String × List SMatch))
    (fp : String) :
    (∀ f ∈ checkHardcodedSecrets c pats fp, f.evidence = some redactionMarker) ∧
    (∀ (c' : List Char) (pats' : List (String × List SMatch)) (fp' : String),
      ∀ f ∈ checkHardcodedSecrets c pats fp,
        ∀ f' ∈ checkHardcodedSecrets c' pats' fp',
          f.evidence = f'.evidence) := by
  have key : ∀ (c0 : List Char) (pats0 : List (String × List SMatch)) (fp0 : String),
      ∀ f ∈ checkHardcodedSecrets c0 pats0 fp0, f.evidence = some redactionMarker := by
    intro c0 pats0 fp0 f hf
    simp only [checkHardcodedSecrets, List.mem_flatMap, List.mem_filterMap] at hf
    obtain ⟨pr, _, m, _, hemit⟩ := hf
    unfold emitSecret at hemit
    split at hemit
    · exact absurd hemit (by simp)
    · cases hemit
      rfl
  refine ⟨key c pats fp, ?_⟩
  intro c' pats' fp' f hf f' hf'
  rw [key c pats fp f hf, key c' pats' fp' f' hf']

/-- Witness for C5: evidence of a concrete secret finding is the marker. -/
theorem C5_evidence_redacted_witness :
    ∀ f ∈ checkHardcodedSecrets "API_KEY = \"abcdef123456\"".toList
        [("Hardcoded API key", [⟨"API_KEY = \"abcdef123456".toList, 0⟩])] "a.py",
      f.evidence = some redactionMarker :=
  (C5_evidence_redacted "API_KEY = \"abcdef123456\"".toList
    [("Hardcoded API key", [⟨"API_KEY = \"abcdef123456".toList, 0⟩])] "a.py").1

/-- C6: a secret-pattern match whose matched text contains a placeholder
word (case-insensitive) is skipped: removing such a match from the match
list leaves the emitted findings unchanged, i.e. no finding is emitted
for it. -/
theorem C6_placeholder_skip (c : List Char) (fp desc : String)
    (pre post : List SMatch) (m : SMatch)
    (h : isPlaceholderText m.text = true) :
    checkHardcodedSecrets c [(desc, pre ++ m :: post)] fp =
      checkHardcodedSecrets c [(desc, pre ++ post)] fp := by
  simp only [checkHardcodedSecrets, List.flatMap_cons, List.flatMap_nil,
    List.append_nil, List.filterMap_append, List.filterMap_cons]
  have : emitSecret c fp desc m = none := by
    unfold emitSecret
    simp [h]
  rw [this]

/-- Witness for C6 at a concrete placeholder-looking match. -/
theorem C6_placeholder_skip_witness :
    isPlaceholderText "API_KEY = \"your_api_key_here\"".toList = true ∧
    checkHardcodedSecrets "code".toList
        [("Hardcoded API key",
          [] ++ (⟨"API_KEY = \"your_api_key_here\"".toList, 0⟩ : SMatch) :: [])] "a.py" =
      checkHardcodedSecrets "code".toList [("Hardcoded API key", [] ++ [])] "a.py" :=
  ⟨by decide,
    C6_placeholder_skip "code".toList "a.py" "Hardcoded API key" [] []
      ⟨"API_KEY = \"your_api_key_here\"".toList, 0⟩ (by decide)⟩

/-- `_check_skill_structure`: one CRITICAL "Structure" finding when the
manifest file `SKILL.md` is missing (`manifest = none`). -/
def checkSkillStructure (manifest : Option (List Char)) (skillPath : String) :
    List Finding :=
  match manifest with
  | none =>
    [{ severity := Severity.critical
       category := "Structure"
       title := "Missing SKILL.md"
       description := "Required SKILL.md file not found"
       location := skillPath
       evidence := none
       impact := "Skill cannot function without SKILL.md" }]
  | some _ => []

/-- The frontmatter extraction `re.match(r'^---\n(.*?)\n---', content,
re.DOTALL)`: the content must start with `---` and a newline, and the
group is the shortest run of characters up to the next newline-dashes
delimiter. -/
def extractFrontmatter (c : List Char) : Option (List Char) :=
  if List.isPrefixOf "---\n".toList c then
    match findSubIdx "\n---".toList (c.drop 4) with
    | some k => some ((c.drop 4).take k)
    | none => none
  else none

/-- Matcher for the pattern `!\s*<` at a fixed position. -/
def bangTagAt : List Char → Bool
  | [] => false
  | c :: r =>
    c == '!' && (
      let rec wsThenLt : List Char → Bool
        | [] => false
        | d :: r' => if d == '<' then true else if pyIsSpace d then wsThenLt r' else false
      wsThenLt r)

/-- The dangerous-frontmatter rule table of `_scan_yaml_frontmatter`:
matcher (applied to the lowercased frontmatter, as the search is
case-insensitive), regex source text, and description. -/
def yamlDangerousRules : List ((List Char → Bool) × String × String) :=
  [(searchPos bangTagAt, "!\\s*<", "YAML tag directive (potential code execution)"),
   (containsSub "__proto__".toList, "__proto__", "Prototype pollution attempt"),
   (containsSub "!!python".toList, "!!python", "Python object deserialization"),
   (containsSub "eval(".toList, "eval\\(", "Eval function call in YAML"),
   (containsSub "exec(".toList, "exec\\(", "Exec function call in YAML")]

/-- `_scan_yaml_frontmatter`: nothing when the manifest is absent; a HIGH
"YAML" finding when the frontmatter delimiters are missing; otherwise one
CRITICAL "YAML Injection" finding per matching dangerous pattern. -/
def scanYamlFrontmatter (manifest : Option (List Char)) : List Finding :=
  match manifest with
  | none => []
  | some c =>
    match extractFrontmatter c with
    | none =>
      [{ severity := Severity.high
         category := "YAML"
         title := "Missing YAML frontmatter"
         description := "SKILL.md missing required YAML frontmatter"
         location := "SKILL.md:1"
         evidence := none
         impact := "Skill metadata cannot be parsed" }]
    | some fm =>
      let fml := fm.map Char.toLower
      yamlDangerousRules.filterMap (fun rule =>
        if rule.1 fml then
          some
            { severity := Severity.critical
              category := "YAML Injection"
              title := "Dangerous YAML pattern: " ++ rule.2.2
              description := "YAML frontmatter contains '" ++ rule.2.1 ++
                "' which could execute code"
              location := "SKILL.md frontmatter"
              evidence := none
              impact := "Arbitrary code execution during skill parsing" }
        else none)

/-- Matcher for `(requests|urllib|socket|http)` at a fixed position,
returning the rest after the matched library name. -/
def netLibRest (l : List Char) : Option (List Char) :=
  if List.isPrefixOf "requests".toList l then some (l.drop 8)
  else if List.isPrefixOf "urllib".toList l then some (l.drop 6)
  else if List.isPrefixOf "socket".toList l then some (l.drop 6)
  else if List.isPrefixOf "http".toList l then some (l.drop 4)
  else none

/-- Consume `\s*\.\s*`, returning the rest. -/
def wsDotWs (l : List Char) : Option (List Char) :=
  match l.dropWhile pyIsSpace with
  | '.' :: r => some (r.dropWhile pyIsSpace)
  | _ => none

/-- Matcher at a fixed position for the network-call pattern
`(requests|urllib|socket|http)\s*\.\s*(get|post|connect|urlopen)`. -/
def networkOpAt (l : List Char) : Bool :=
  match netLibRest l with
  | none => false
  | some r =>
    match wsDotWs r with
    | none => false
    | some r2 =>
      List.isPrefixOf "get".toList r2 || List.isPrefixOf "post".toList r2 ||
        List.isPrefixOf "connect".toList r2 || List.isPrefixOf "urlopen".toList r2

/-- Matcher for the manifest-documentation words
`(network|http|api|request)` (applied to lowercased text). -/
def docMentionsNetwork (l : List Char) : Bool :=
  containsSub "network".toList l || containsSub "http".toList l ||
    containsSub "api".toList l || containsSub "request".toList l

/-- `_check_network_operations`: count the bundle's Python files that
contain a network-call pattern; if positive and the manifest exists but
mentions none of the documentation words, emit one HIGH "Documentation"
finding.  A missing manifest is silently skipped. -/
def checkNetworkOperations (pyFiles : List (List Char))
    (manifest : Option (List Char)) : List Finding :=
  let networkCount := (pyFiles.filter (fun c => searchPos networkOpAt c)).length
  if networkCount > 0 then
    match manifest with
    | none => []
    | some m =>
      if docMentionsNetwork (m.map Char.toLower) then []
      else
        [{ severity := Severity.high
           category := "Documentation"
           title := "Undocumented network access"
           description := "Found " ++ toString networkCount ++
             " files with network operations but no mention in SKILL.md"
           location := "SKILL.md"
           evidence := none
           impact := "Users unaware skill makes external requests" }]
  else []

/-- C7: when the manifest file is missing, the structure check emits
exactly one CRITICAL "Structure" finding, the frontmatter-injection scan
emits nothing, and the downstream network-documentation check that needs
manifest text also emits nothing instead of raising. -/
theorem C7_missing_manifest (skillPath : String) (pyFiles : List (List Char)) :
    (checkSkillStructure none skillPath).length = 1 ∧
    (∀ f ∈ checkSkillStructure none skillPath,
      f.severity = Severity.critical ∧ f.category = "Structure" ∧
        f.impact = "Skill cannot function without SKILL.md") ∧
    scanYamlFrontmatter none = [] ∧
    checkNetworkOperations pyFiles none = [] := by
  refine ⟨rfl, ?_, rfl, ?_⟩
  · intro f hf
    simp only [checkSkillStructure, List.mem_singleton] at hf
    subst hf
    exact ⟨rfl, rfl, rfl⟩
  · unfold checkNetworkOperations
    split
    · dsimp only
      split <;> rfl
    · rename_i heq
      exact Option.noConfusion heq

/-- Witness for C7 at a concrete bundle path and Python file list. -/
theorem C7_missing_manifest_witness :
    (checkSkillStructure none "skills/demo").length = 1 ∧
    (∀ f ∈ checkSkillStructure none "skills/demo",
      f.severity = Severity.critical ∧ f.category = "Structure" ∧
        f.impact = "Skill cannot function without SKILL.md") ∧
    scanYamlFrontmatter none = [] ∧
    checkNetworkOperations ["requests.get(url)".toList] none = [] :=
  C7_missing_manifest "skills/demo" ["requests.get(url)".toList]

/-- A file under `references/`: suffix and contents; `content = none`
models `read_text` raising (the exception is swallowed by the bare
`except: pass` in `_scan_references`). -/
structure RefFile where
  name : String
  suffix : String
  content : Option (List Char)
deriving DecidableEq

/-- Does the line (up to the next newline) contain one of the fenced-code
execution tokens `eval`, `exec`, `os.system`?  This is the `.*(?:...)`
part of the reference pattern, where `.` does not cross newlines. -/
def hasTokenBeforeNewline : List Char → Bool
  | [] => false
  | c :: r =>
    if List.isPrefixOf "eval".toList (c :: r) ||
        List.isPrefixOf "exec".toList (c :: r) ||
        List.isPrefixOf "os.system".toList (c :: r) then true
    else if c == '\n' then false
    else hasTokenBeforeNewline r

/-- Matcher at a fixed position for the reference pattern
` ```.*(?:eval|exec|os\.system)`. -/
def refPatternAt (l : List Char) : Bool :=
  List.isPrefixOf "```".toList l && hasTokenBeforeNewline (l.drop 3)

/-- Per-file body of `_scan_references`: an unreadable file is silently
skipped (`except: pass`); a readable `.md` file matching the fenced-code
pattern yields one MEDIUM "References" finding. -/
def scanRefFile (skillRel : String) (rf : RefFile) : List Finding :=
  match rf.content with
  | none => []
  | some c =>
    if rf.suffix == ".md" && searchPos refPatternAt c then
      [{ severity := Severity.medium
         category := "References"
         title := "Executable code in reference: " ++ rf.name
         description := "Reference documentation contains executable code patterns"
         location := skillRel
         evidence := none
         impact := "Verify code examples are safe and intended" }]
    else []

/-- `_scan_references` over the files of `references/`. -/
def scanReferences (skillRel : String) (files : List RefFile) : List Finding :=
  files.flatMap (scanRefFile skillRel)

/-- A file under `assets/`: suffix and its first up-to-4 bytes;
`header = none` models `open(asset_file, 'rb')` raising.  Unlike the
reference scan, `_scan_assets` has no try/except around the open. -/
structure AssetFile where
  name : String
  suffix : String
  header : Option (List Nat)
deriving DecidableEq

/-- The extensions `_scan_assets` treats as "should be non-executable". -/
def flaggedExts : List String := [".txt", ".md", ".pdf", ".png", ".jpg"]

/-- The executable magic numbers checked by `_scan_assets`:
ELF, Windows PE (`MZ\x90\x00`), and Mach-O fat (`\xca\xfe\xba\xbe`). -/
def execHeaders : List (List Nat) :=
  [[0x7f, 0x45, 0x4c, 0x46], [0x4d, 0x5a, 0x90, 0x00], [0xca, 0xfe, 0xba, 0xbe]]

/-- Per-file body of `_scan_assets`: for a flagged extension the file is
opened unguarded — a failing open raises (modelled as `Except.error`) —
and a recognised executable header yields one CRITICAL "Assets" finding. -/
def scanAssetFile (a : AssetFile) : Except String (List Finding) :=
  if flaggedExts.contains a.suffix then
    match a.header with
    | none => Except.error a.name
    | some h =>
      Except.ok
        (if execHeaders.contains h then
          [{ severity := Severity.critical
             category := "Assets"
             title := "Executable disguised as " ++ a.suffix
             description := "File " ++ a.name ++ " appears to be executable"
             location := a.name
             evidence := none
             impact := "Malicious executable hiding as innocent file type" }]
        else [])
  else Except.ok []

/-- `_scan_assets` over the files of `assets/`: the first raising open
aborts the whole scan (the exception propagates out of `scan()`). -/
def scanAssets : List AssetFile → Except String (List Finding)
  | [] => Except.ok []
  | a :: rest =>
    match scanAssetFile a with
    | Except.error e => Except.error e
    | Except.ok fs =>
      match scanAssets rest with
      | Except.error e => Except.error e
      | Except.ok fs' => Except.ok (fs ++ fs')

/-- C3 counterexample: an asset file with a flagged extension whose open
fails does not get silently skipped — the asset scan aborts with an
error (the exception escapes `_scan_assets`), so the bundle scan does
not complete, contradicting the claim for asset files. -/
theorem C3_counterexample :
    scanAssets [{ name := "a.txt", suffix := ".txt", header := none }] =
      Except.error "a.txt" := rfl

/-- C3 as amended: reference files that fail to read are silently
skipped with no finding (and the reference scan always completes), but
an asset file with a flagged extension whose open fails aborts the asset
scan with an error instead of being skipped. -/
theorem C3_read_failures (skillRel : String) :
    (∀ rf : RefFile, rf.content = none → scanRefFile skillRel rf = []) ∧
    (∀ (pre : List RefFile) (rf : RefFile) (post : List RefFile),
      rf.content = none →
        scanReferences skillRel (pre ++ rf :: post) =
          scanReferences skillRel (pre ++ post)) ∧
    (∀ (a : AssetFile) (rest : List AssetFile),
      flaggedExts.contains a.suffix = true → a.header = none →
        scanAssets (a :: rest) = Except.error a.name) := by
  have hskip : ∀ rf : RefFile, rf.content = none → scanRefFile skillRel rf = [] := by
    intro rf h
    unfold scanRefFile
    rw [h]
  refine ⟨hskip, ?_, ?_⟩
  · intro pre rf post h
    simp only [scanReferences, List.flatMap_append, List.flatMap_cons]
    rw [hskip rf h]
    simp
  · intro a rest hext hnone
    unfold scanAssets scanAssetFile
    rw [hext, hnone]
    simp

/-- Witness for C3 as amended: a concrete unreadable reference file is
skipped and a concrete unreadable flagged asset aborts the scan. -/
theorem C3_read_failures_witness :
    ((⟨"guide.md", ".md", none⟩ : RefFile).content = none ∧
      scanRefFile "references/guide.md" ⟨"guide.md", ".md", none⟩ = []) ∧
    (flaggedExts.contains ".png" = true ∧
      scanAssets [⟨"logo.png", ".png", none⟩] = Except.error "logo.png") :=
  ⟨⟨rfl, (C3_read_failures "references/guide.md").1 ⟨"guide.md", ".md", none⟩ rfl⟩,
   ⟨by decide,
    (C3_read_failures "references/guide.md").2.2 ⟨"logo.png", ".png", none⟩ []
      (by decide) rfl⟩⟩

/-- Index of the first `'\n'` in a list. -/
def firstNlIdx : List Char → Option Nat
  | [] => none
  | c :: r => if c == '\n' then some 0 else (firstNlIdx r).map (· + 1)

/-- Index of the last `'\n'` in a list. -/
def lastNlIdx : List Char → Option Nat
  | [] => none
  | c :: r =>
    match lastNlIdx r with
    | some j => some (j + 1)
    | none => if c == '\n' then some 0 else none

/-- Python `content.rfind('\n', 0, e)` as an `Option`. -/
def rfindNl (c : List Char) (e : Nat) : Option Nat :=
  lastNlIdx (c.take e)

/-- Python `content.find('\n', s)` as an `Option`. -/
def findNlFrom (c : List Char) (s : Nat) : Option Nat :=
  (firstNlIdx (c.drop s)).map (· + s)

/-- The backward loop of `_get_code_context`: `lines_before` iterations
of `rfind`, each keeping the old value when nothing is found. -/
def backBoundary (c : List Char) : Nat → Nat → Nat
  | 0, ls => ls
  | n + 1, ls =>
    backBoundary c n
      (match rfindNl c ls with
       | some p => p
       | none => ls)

/-- The forward loop of `_get_code_context`: up to `lines_after`
iterations of `find` starting one past the current end, breaking at the
first failure. -/
def fwdBoundary (c : List Char) : Nat → Nat → Nat
  | 0, le => le
  | n + 1, le =>
    match findNlFrom c (le + 1) with
    | some p => fwdBoundary c n p
    | none => le

/-- `_get_code_context(content, position, lines_before, lines_after)`:
slice between the computed boundaries, strip, and truncate to 200
characters with an ellipsis appended when over the limit. -/
def getCodeContext (c : List Char) (position linesBefore linesAfter : Nat) :
    List Char :=
  let lineStart := backBoundary c linesBefore position
  let lineEnd := fwdBoundary c linesAfter position
  let context := pyStrip ((c.drop lineStart).take (lineEnd - lineStart))
  if 200 < context.length then context.take 200 ++ "...".toList else context

lemma searchPos_iff (p : List Char → Bool) (l : List Char) :
    searchPos p l = true ↔ ∃ i, p (l.drop i) = true := by
  induction l with
  | nil =>
    constructor
    · intro h
      exact ⟨0, h⟩
    · rintro ⟨i, h⟩
      simpa using h
  | cons c r ih =>
    simp only [searchPos, Bool.or_eq_true, ih]
    constructor
    · rintro (h | ⟨i, h⟩)
      · exact ⟨0, h⟩
      · exact ⟨i + 1, h⟩
    · rintro ⟨i, h⟩
      cases i with
      | zero => exact Or.inl h
      | succ j => exact Or.inr ⟨j, h⟩

/-- A `re.finditer` match span: start and end offsets. -/
structure RMatch where
  mstart : Nat
  mstop : Nat
deriving DecidableEq

/-- The lookahead window of `_check_obfuscation`:
`content[match.end():match.end()+100]`. -/
def obfWindow (c : List Char) (m : RMatch) : List Char :=
  (c.drop m.mstop).take 100

/-- Consume `\s*` then require `(` (tail of the `(exec|eval)\s*\(`
pattern after the keyword). -/
def wsThenParen : List Char → Bool
  | [] => false
  | c :: r => if c == '(' then true else if pyIsSpace c then wsThenParen r else false

/-- Matcher at a fixed position for `(exec|eval)\s*\(`. -/
def evalExecAt (l : List Char) : Bool :=
  (List.isPrefixOf "exec".toList l && wsThenParen (l.drop 4)) ||
    (List.isPrefixOf "eval".toList l && wsThenParen (l.drop 4))

/-- Per-match body of the `_check_obfuscation` loop: severity and impact
escalate to CRITICAL iff an eval/exec call is found in the 100-character
window after the match. -/
def obfFinding (c : List Char) (fp desc : String) (m : RMatch) : Finding :=
  let escalate := searchPos evalExecAt (obfWindow c m)
  { severity := if escalate then Severity.critical else Severity.medium
    category := "Obfuscation"
    title := desc
    description := "Code using encoding/compression - may hide malicious intent"
    location := fp ++ ":" ++ toString (lineNumber c m.mstart)
    evidence := some (String.mk (getCodeContext c m.mstart 1 1))
    impact :=
      if escalate then "Executing obfuscated code - likely malicious"
      else "Code obfuscation detected - manual review required" }

/-- `_check_obfuscation`, parameterised by the per-pattern match lists
that `re.finditer` yields for the obfuscation patterns. -/
def checkObfuscation (c : List Char) (pats : List (String × List RMatch))
    (fp : String) : List Finding :=
  pats.flatMap (fun pr => pr.2.map (obfFinding c fp pr.1))

/-- C4: each obfuscation-pattern match produces exactly one Obfuscation
finding (one per match over all pattern families), and its severity and
impact are decided by the 100-character window after the match: CRITICAL
with the likely-malicious impact exactly when an eval/exec-style call
occurs in the window, MEDIUM with the manual-review impact otherwise. -/
theorem C4_obfuscation_escalation (c : List Char) (fp desc : String) (m : RMatch) :
    (∀ pats : List (String × List RMatch),
      (checkObfuscation c pats fp).length =
        (pats.map (fun pr => pr.2.length)).sum) ∧
    (∃ f : Finding,
      checkObfuscation c [(desc, [m])] fp = [f] ∧
      f.category = "Obfuscation" ∧
      ((∃ i, evalExecAt ((obfWindow c m).drop i) = true) →
        f.severity = Severity.critical ∧
          f.impact = "Executing obfuscated code - likely malicious") ∧
      ((¬ ∃ i, evalExecAt ((obfWindow c m).drop i) = true) →
        f.severity = Severity.medium ∧
          f.impact = "Code obfuscation detected - manual review required")) := by
  constructor
  · intro pats
    induction pats with
    | nil => rfl
    | cons pr rest ih =>
      simp [checkObfuscation, List.flatMap_cons] at *
      omega
  · refine ⟨obfFinding c fp desc m, by simp [checkObfuscation], rfl, ?_, ?_⟩
    · intro hwin
      have h : searchPos evalExecAt (obfWindow c m) = true :=
        (searchPos_iff _ _).mpr hwin
      unfold obfFinding
      rw [h]
      exact ⟨rfl, rfl⟩
    · intro hwin
      have h : searchPos evalExecAt (obfWindow c m) = false := by
        rcases hb : searchPos evalExecAt (obfWindow c m) with _ | _
        · rfl
        · exact absurd ((searchPos_iff _ _).mp hb) hwin
      unfold obfFinding
      rw [h]
      exact ⟨rfl, rfl⟩

/-- Witness for C4: a base64-decode match followed by `eval(` within the
window escalates to CRITICAL with the likely-malicious impact. -/
theorem C4_obfuscation_escalation_witness :
    (∃ i, evalExecAt
      ((obfWindow "x = base64.b64decode(s).decode()\neval(x)\n".toList
        ⟨4, 32⟩).drop i) = true) ∧
    (∃ f : Finding,
      checkObfuscation "x = base64.b64decode(s).decode()\neval(x)\n".toList
          [("Base64 decode (potential obfuscation)", [⟨4, 32⟩])] "bad.py" = [f] ∧
      f.category = "Obfuscation" ∧
      f.severity = Severity.critical ∧
      f.impact = "Executing obfuscated code - likely malicious") := by
  have h := C4_obfuscation_escalation
    "x = base64.b64decode(s).decode()\neval(x)\n".toList "bad.py"
    "Base64 decode (potential obfuscation)" ⟨4, 32⟩
  have hwin : ∃ i, evalExecAt
      ((obfWindow "x = base64.b64decode(s).decode()\neval(x)\n".toList
        ⟨4, 32⟩).drop i) = true := ⟨1, by decide⟩
  obtain ⟨f, hf, hcat, hcrit, _⟩ := h.2
  exact ⟨hwin, f, hf, hcat, (hcrit hwin).1, (hcrit hwin).2⟩

/-- Attempt of the import pattern `^\s*(?:import|from)\s+([a-zA-Z0-9_]+)`
at a line-start position: leading whitespace (which, as `\s` includes
newlines under `re.MULTILINE`, may span lines), the keyword, at least
one whitespace, then the captured identifier.  Returns the capture and
the rest of the text after the match. -/
def tryImportMatch (l : List Char) : Option (List Char × List Char) :=
  let r1 := l.dropWhile pyIsSpace
  let kwRest : Option (List Char) :=
    if List.isPrefixOf "import".toList r1 then some (r1.drop 6)
    else if List.isPrefixOf "from".toList r1 then some (r1.drop 4)
    else none
  match kwRest with
  | none => none
  | some [] => none
  | some (c :: r2) =>
    if pyIsSpace c then
      let r3 := (c :: r2).dropWhile pyIsSpace
      let ident := r3.takeWhile isIdentChar
      if ident.isEmpty then none else some (ident, r3.drop ident.length)
    else none

/-- `re.finditer` scan for the import pattern: non-overlapping matches,
each anchored (`^` under `re.MULTILINE`) at the string start or just
after a newline.  Fuel-driven; each step consumes at least one
character, so `length + 1` fuel suffices. -/
def findImportsAux : Nat → List Char → Bool → List (List Char)
  | 0, _, _ => []
  | _ + 1, [], _ => []
  | fuel + 1, c :: r, atStart =>
    if atStart then
      match tryImportMatch (c :: r) with
      | some (ident, rest) => ident :: findImportsAux fuel rest false
      | none => findImportsAux fuel r (c == '\n')
    else findImportsAux fuel r (c == '\n')

/-- The captured top-level import identifiers of one script file. -/
def findImports (c : List Char) : List (List Char) :=
  findImportsAux (c.length + 1) c true

/-- The fixed typo-to-canonical map of `_check_dependencies`. -/
def suspiciousPackages : List (List Char × String) :=
  [("reqeusts".toList, "requests"),
   ("urlib".toList, "urllib"),
   ("subproces".toList, "subprocess")]

/-- Title of a typosquatting finding, `f"Typosquatting attempt: {pkg}"`. -/
def typoTitle (pkg : List Char) : String :=
  String.mk ("Typosquatting attempt: ".toList ++ pkg)

/-- Description of a typosquatting finding, naming the canonical package. -/
def typoDescription (pkg : List Char) (canonical : String) : String :=
  String.mk ("Package '".toList ++ pkg ++ "' looks like typo of '".toList ++
    canonical.toList ++ "'".toList)

/-- The CRITICAL "Supply Chain" finding for one suspicious identifier. -/
def typoFinding (pkg : List Char) (canonical : String) : Finding :=
  { severity := Severity.critical
    category := "Supply Chain"
    title := typoTitle pkg
    description := typoDescription pkg canonical
    location := "scripts/"
    evidence := none
    impact := "Could be malicious package masquerading as legitimate library" }

/-- `_check_dependencies`: union the import identifiers of all script
files into a set (`dedup`; Python set iteration order is arbitrary and
modelled as last-occurrence order) and emit one finding per suspicious
member. -/
def checkDependencies (scripts : List (List Char)) : List Finding :=
  let allImports := (scripts.flatMap (fun c => findImports c)).dedup
  allImports.filterMap (fun pkg =>
    match suspiciousPackages.lookup pkg with
    | some canonical => some (typoFinding pkg canonical)
    | none => none)

lemma countP_filterMap {α β : Type} (f : α → Option β) (p : β → Bool) :
    ∀ l : List α,
      (l.filterMap f).countP p =
        l.countP (fun a => ((f a).map p).getD false) := by
  intro l
  induction l with
  | nil => rfl
  | cons a t ih =>
    rcases hf : f a with _ | b
    · rw [List.filterMap_cons_none hf, ih, List.countP_cons, hf]
      simp
    · rw [List.filterMap_cons_some hf, List.countP_cons, List.countP_cons, ih, hf]
      simp

/-- C8: the dependency check emits, for each identifier of the fixed
typo map, exactly one CRITICAL "Supply Chain" finding naming the
canonical package when some script imports it — one finding per distinct
suspicious identifier, regardless of how many files or occurrences
name it in an import — and none when no script imports it. -/
theorem C8_typosquatting (scripts : List (List Char)) (pkg : List Char)
    (canonical : String) (hmap : (pkg, canonical) ∈ suspiciousPackages) :
    (checkDependencies scripts).countP
        (fun f => decide (f.title = typoTitle pkg ∧
          f.description = typoDescription pkg canonical ∧
          f.severity = Severity.critical ∧ f.category = "Supply Chain")) =
      if pkg ∈ scripts.flatMap (fun c => findImports c) then 1 else 0 := by
  have hlook : suspiciousPackages.lookup pkg = some canonical := by
    simp only [suspiciousPackages, List.mem_cons, List.not_mem_nil, or_false] at hmap
    rcases hmap with h | h | h <;>
      · rw [Prod.ext_iff] at h
        obtain ⟨h1, h2⟩ := h
        subst h1
        subst h2
        rfl
  unfold checkDependencies
  rw [countP_filterMap]
  have hpt : ∀ a : List Char,
      ((match suspiciousPackages.lookup a with
        | some canonical' => some (typoFinding a canonical')
        | none => none).map
          (fun (f : Finding) => decide (f.title = typoTitle pkg ∧
            f.description = typoDescription pkg canonical ∧
            f.severity = Severity.critical ∧ f.category = "Supply Chain"))).getD false =
        decide (a = pkg) := by
    intro a
    by_cases ha : a = pkg
    · subst ha
      rw [hlook]
      simp [typoFinding]
    · have htitle : typoTitle a ≠ typoTitle pkg := by
        intro h
        have h2 : "Typosquatting attempt: ".toList ++ a =
            "Typosquatting attempt: ".toList ++ pkg := congrArg String.data h
        exact ha (List.append_cancel_left h2)
      rcases hl : suspiciousPackages.lookup a with _ | can'
      · simp [ha]
      · simp [typoFinding, htitle, ha]
  calc ((scripts.flatMap fun c => findImports c).dedup).countP
        (fun a => ((match suspiciousPackages.lookup a with
          | some canonical' => some (typoFinding a canonical')
          | none => none).map
            (fun (f : Finding) => decide (f.title = typoTitle pkg ∧
              f.description = typoDescription pkg canonical ∧
              f.severity = Severity.critical ∧ f.category = "Supply Chain"))).getD false)
      = ((scripts.flatMap fun c => findImports c).dedup).countP
          (fun a => decide (a = pkg)) :=
        List.countP_congr (fun a _ => by rw [hpt a])
    _ = @List.count (List Char) instBEqOfDecidableEq pkg
          ((scripts.flatMap fun c => findImports c).dedup) := rfl
    _ = if pkg ∈ scripts.flatMap (fun c => findImports c) then 1 else 0 := by
        rw [List.count_dedup _ _]
        split <;> rfl

/-- Witness for C8: two files importing the misspelled `reqeusts` (one of
them twice) yield exactly one Supply Chain finding naming `requests`. -/
theorem C8_typosquatting_witness :
    ("reqeusts".toList, "requests") ∈ suspiciousPackages ∧
    (checkDependencies
        ["import reqeusts\nimport reqeusts\n".toList,
         "from reqeusts import get\n".toList]).countP
        (fun f => decide (f.title = typoTitle "reqeusts".toList ∧
          f.description = typoDescription "reqeusts".toList "requests" ∧
          f.severity = Severity.critical ∧ f.category = "Supply Chain")) =
      if "reqeusts".toList ∈
          (["import reqeusts\nimport reqeusts\n".toList,
            "from reqeusts import get\n".toList].flatMap fun c => findImports c)
        then 1 else 0 :=
  ⟨by decide,
   C8_typosquatting
     ["import reqeusts\nimport reqeusts\n".toList,
      "from reqeusts import get\n".toList]
     "reqeusts".toList "requests" (by decide)⟩

lemma lastNlIdx_none_nl (l : List Char) (h : lastNlIdx l = none) :
    ∀ i : Nat, l.get? i ≠ some '\n' := by
  induction l with
  | nil => intro i; simp
  | cons c r ih =>
    intro i
    simp only [lastNlIdx] at h
    rcases hr : lastNlIdx r with _ | j
    · rw [hr] at h
      cases i with
      | zero =>
        intro hcon
        have hc : c = '\n' := Option.some.inj hcon
        rw [hc] at h
        simp at h
      | succ i' => exact ih hr i'
    · rw [hr] at h
      exact Option.noConfusion h

lemma lastNlIdx_none_of (l : List Char) (h : ∀ i : Nat, l.get? i ≠ some '\n') :
    lastNlIdx l = none := by
  induction l with
  | nil => rfl
  | cons c r ih =>
    have hr : lastNlIdx r = none := ih (fun i => h (i + 1))
    have hc : (c == '\n') = false := by
      rcases hb : c == '\n' with _ | _
      · rfl
      · exfalso
        apply h 0
        have hceq : c = '\n' := by simpa using hb
        rw [hceq]
        rfl
    simp [lastNlIdx, hr, hc]

lemma lastNlIdx_some_nl (l : List Char) :
    ∀ j : Nat, lastNlIdx l = some j → l.get? j = some '\n' := by
  induction l with
  | nil => intro j h; exact Option.noConfusion h
  | cons c r ih =>
    intro j h
    simp only [lastNlIdx] at h
    rcases hr : lastNlIdx r with _ | j'
    · rw [hr] at h
      rcases hb : c == '\n' with _ | _
      · rw [hb] at h
        simp at h
      · rw [hb] at h
        simp at h
        have hceq : c = '\n' := by simpa using hb
        rw [← h]
        show some c = some '\n'
        rw [hceq]
    · rw [hr] at h
      simp only [Option.some.injEq] at h
      rw [← h]
      exact ih j' hr

lemma lastNlIdx_some_max (l : List Char) :
    ∀ j : Nat, lastNlIdx l = some j → ∀ i : Nat, j < i → l.get? i ≠ some '\n' := by
  induction l with
  | nil => intro j h; exact Option.noConfusion h
  | cons c r ih =>
    intro j h i hji
    simp only [lastNlIdx] at h
    rcases hr : lastNlIdx r with _ | j'
    · rw [hr] at h
      rcases hb : c == '\n' with _ | _
      · rw [hb] at h
        simp at h
      · rw [hb] at h
        simp at h
        cases i with
        | zero => omega
        | succ i' => exact lastNlIdx_none_nl r hr i'
    · rw [hr] at h
      simp only [Option.some.injEq] at h
      cases i with
      | zero => omega
      | succ i' => exact ih j' hr i' (by omega)

lemma firstNlIdx_none_nl (l : List Char) (h : firstNlIdx l = none) :
    ∀ i : Nat, l.get? i ≠ some '\n' := by
  induction l with
  | nil => intro i; simp
  | cons c r ih =>
    intro i
    simp only [firstNlIdx] at h
    rcases hb : c == '\n' with _ | _
    · rw [hb] at h
      simp only [Bool.false_eq_true, if_false] at h
      have hr : firstNlIdx r = none := by
        rcases hg : firstNlIdx r with _ | j
        · rfl
        · rw [hg] at h
          simp at h
      cases i with
      | zero =>
        intro hcon
        have hceq : c = '\n' := Option.some.inj hcon
        rw [hceq] at hb
        simp at hb
      | succ i' => exact ih hr i'
    · rw [hb] at h
      simp at h

lemma firstNlIdx_none_of (l : List Char) (h : ∀ i : Nat, l.get? i ≠ some '\n') :
    firstNlIdx l = none := by
  induction l with
  | nil => rfl
  | cons c r ih =>
    have hr : firstNlIdx r = none := ih (fun i => h (i + 1))
    have hc : (c == '\n') = false := by
      rcases hb : c == '\n' with _ | _
      · rfl
      · exfalso
        apply h 0
        have hceq : c = '\n' := by simpa using hb
        rw [hceq]
        rfl
    simp [firstNlIdx, hc, hr]

lemma firstNlIdx_some_nl (l : List Char) :
    ∀ j : Nat, firstNlIdx l = some j → l.get? j = some '\n' := by
  induction l with
  | nil => intro j h; exact Option.noConfusion h
  | cons c r ih =>
    intro j h
    simp only [firstNlIdx] at h
    rcases hb : c == '\n' with _ | _
    · rw [hb] at h
      simp only [Bool.false_eq_true, if_false] at h
      rcases hg : firstNlIdx r with _ | j0
      · rw [hg] at h
        exact Option.noConfusion h
      · rw [hg] at h
        simp only [Option.map_some'] at h
        have hj : j = j0 + 1 := (Option.some.inj h).symm
        rw [hj]
        exact ih j0 hg
    · rw [hb] at h
      simp at h
      have hceq : c = '\n' := by simpa using hb
      rw [← h]
      show some c = some '\n'
      rw [hceq]

lemma firstNlIdx_some_min (l : List Char) :
    ∀ j : Nat, firstNlIdx l = some j → ∀ i : Nat, i < j → l.get? i ≠ some '\n' := by
  induction l with
  | nil => intro j h; exact Option.noConfusion h
  | cons c r ih =>
    intro j h i hij
    simp only [firstNlIdx] at h
    rcases hb : c == '\n' with _ | _
    · rw [hb] at h
      simp only [Bool.false_eq_true, if_false] at h
      rcases hg : firstNlIdx r with _ | j0
      · rw [hg] at h
        exact Option.noConfusion h
      · rw [hg] at h
        simp only [Option.map_some'] at h
        have hj : j = j0 + 1 := (Option.some.inj h).symm
        subst hj
        cases i with
        | zero =>
          intro hcon
          have hceq : c = '\n' := Option.some.inj hcon
          rw [hceq] at hb
          simp at hb
        | succ i' => exact ih j0 hg i' (by omega)
    · rw [hb] at h
      simp at h
      exact absurd hij (by omega)

/-- `_get_code_context` modelled from the claim's words instead of the
source: a missing newline boundary is treated as the start or end of the
content. -/
def getCodeContextSpec (c : List Char) (position : Nat) : List Char :=
  let lineStart :=
    match rfindNl c position with
    | some p => p
    | none => 0
  let lineEnd :=
    match findNlFrom c (position + 1) with
    | some p => p
    | none => c.length
  let context := pyStrip ((c.drop lineStart).take (lineEnd - lineStart))
  if 200 < context.length then context.take 200 ++ "...".toList else context

/-- C9 counterexample: on single-line content the extractor does NOT
treat the missing newline boundaries as the start and end of the
content — both boundaries collapse to the match position and the snippet
is empty, while the claim's reading yields the whole line. -/
theorem C9_counterexample :
    getCodeContext "abcd".toList 2 1 1 = [] ∧
    getCodeContextSpec "abcd".toList 2 = "abcd".toList ∧
    getCodeContext "abcd".toList 2 1 1 ≠ getCodeContextSpec "abcd".toList 2 :=
  ⟨by decide, by decide, by decide⟩

/-- C9 as amended: for every content and offset up to the length, the
extractor totally computes a snippet whose boundaries are: the last
newline strictly before the offset — or the offset itself (not the
content start) when there is none — and the first newline at or after
offset + 1 — or the offset itself (not the content end) when there is
none; the snippet is the whitespace-trimmed slice between the
boundaries, truncated to 200 characters with an ellipsis appended
exactly when the trimmed slice exceeds 200 characters. -/
theorem C9_context_extraction (c : List Char) (pos : Nat) (hpos : pos ≤ c.length) :
    ∃ ls le : Nat,
      ls ≤ pos ∧ pos ≤ le ∧ le ≤ c.length ∧
      ((∀ i : Nat, i < pos → c.get? i ≠ some '\n') → ls = pos) ∧
      (∀ j : Nat, rfindNl c pos = some j →
        ls = j ∧ c.get? j = some '\n' ∧
          ∀ i : Nat, j < i → i < pos → c.get? i ≠ some '\n') ∧
      ((∀ i : Nat, pos + 1 ≤ i → c.get? i ≠ some '\n') → le = pos) ∧
      (∀ j : Nat, findNlFrom c (pos + 1) = some j →
        le = j ∧ c.get? j = some '\n' ∧
          ∀ i : Nat, pos + 1 ≤ i → i < j → c.get? i ≠ some '\n') ∧
      ((200 < (pyStrip ((c.drop ls).take (le - ls))).length →
          getCodeContext c pos 1 1 =
            (pyStrip ((c.drop ls).take (le - ls))).take 200 ++ "...".toList ∧
          (getCodeContext c pos 1 1).length = 203) ∧
       ((pyStrip ((c.drop ls).take (le - ls))).length ≤ 200 →
          getCodeContext c pos 1 1 = pyStrip ((c.drop ls).take (le - ls)))) := by
  have hunfold : getCodeContext c pos 1 1 =
      (if 200 < (pyStrip ((c.drop (backBoundary c 1 pos)).take
          (fwdBoundary c 1 pos - backBoundary c 1 pos))).length
       then (pyStrip ((c.drop (backBoundary c 1 pos)).take
          (fwdBoundary c 1 pos - backBoundary c 1 pos))).take 200 ++ "...".toList
       else pyStrip ((c.drop (backBoundary c 1 pos)).take
          (fwdBoundary c 1 pos - backBoundary c 1 pos))) := rfl
  refine ⟨backBoundary c 1 pos, fwdBoundary c 1 pos, ?_, ?_, ?_, ?_, ?_, ?_, ?_, ?_⟩
  · rcases hr : rfindNl c pos with _ | j
    · simp [backBoundary, hr]
    · have hval := lastNlIdx_some_nl (c.take pos) j hr
      obtain ⟨hlt, _⟩ := List.get?_eq_some.mp hval
      rw [List.length_take] at hlt
      have hjp : j < pos := lt_of_lt_of_le hlt (Nat.min_le_left _ _)
      simp [backBoundary, hr]
      omega
  · rcases hf : findNlFrom c (pos + 1) with _ | j
    · simp [fwdBoundary, hf]
    · have hge : pos + 1 ≤ j := by
        simp only [findNlFrom, Option.map_eq_some'] at hf
        obtain ⟨idx, _, heq⟩ := hf
        omega
      simp [fwdBoundary, hf]
      omega
  · rcases hf : findNlFrom c (pos + 1) with _ | j
    · simp [fwdBoundary, hf]
      exact hpos
    · simp only [findNlFrom, Option.map_eq_some'] at hf
      obtain ⟨idx, hidx, heq⟩ := hf
      have hval := firstNlIdx_some_nl _ idx hidx
      obtain ⟨hlt, _⟩ := List.get?_eq_some.mp hval
      rw [List.length_drop] at hlt
      have hfb : fwdBoundary c 1 pos = j := by
        simp only [fwdBoundary, findNlFrom, hidx, Option.map_some']
        simpa [fwdBoundary] using heq
      rw [hfb]
      omega
  · intro h
    have hnone : rfindNl c pos = none := by
      apply lastNlIdx_none_of
      intro i
      by_cases hip : i < pos
      · rw [List.get?_take hip]
        exact h i hip
      · have hlen : (c.take pos).length ≤ i := by
          rw [List.length_take]
          exact le_trans (Nat.min_le_left _ _) (by omega)
        rw [List.get?_len_le hlen]
        simp
    simp [backBoundary, hnone]
  · intro j hj
    have hval := lastNlIdx_some_nl (c.take pos) j hj
    have hmax := lastNlIdx_some_max (c.take pos) j hj
    obtain ⟨hlt, _⟩ := List.get?_eq_some.mp hval
    rw [List.length_take] at hlt
    have hjlt : j < pos := lt_of_lt_of_le hlt (Nat.min_le_left _ _)
    refine ⟨by simp [backBoundary, hj], ?_, ?_⟩
    · rw [List.get?_take hjlt] at hval
      exact hval
    · intro i hji hip
      have hx := hmax i hji
      rw [List.get?_take hip] at hx
      exact hx
  · intro h
    have hnone : firstNlIdx (c.drop (pos + 1)) = none := by
      apply firstNlIdx_none_of
      intro i
      rw [List.get?_drop]
      exact h (pos + 1 + i) (by omega)
    simp [fwdBoundary, findNlFrom, hnone]
  · intro j hj
    simp only [findNlFrom, Option.map_eq_some'] at hj
    obtain ⟨idx, hidx, heq⟩ := hj
    have hval := firstNlIdx_some_nl _ idx hidx
    have hmin := firstNlIdx_some_min _ idx hidx
    rw [List.get?_drop] at hval
    refine ⟨?_, ?_, ?_⟩
    · simp only [fwdBoundary, findNlFrom, hidx, Option.map_some']
      simpa [fwdBoundary] using heq
    · have heqi : pos + 1 + idx = j := by omega
      rw [heqi] at hval
      exact hval
    · intro i h1 h2
      have hidx2 : i - (pos + 1) < idx := by omega
      have hx := hmin (i - (pos + 1)) hidx2
      rw [List.get?_drop] at hx
      have heqi : pos + 1 + (i - (pos + 1)) = i := by omega
      rw [heqi] at hx
      exact hx
  · constructor
    · intro hlong
      constructor
      · rw [hunfold, if_pos hlong]
      · rw [hunfold, if_pos hlong]
        rw [List.length_append, List.length_take]
        rw [Nat.min_eq_left (by omega)]
        rfl
    · intro hshort
      rw [hunfold, if_neg (by omega)]

/-- Witness for C9 as amended, at concrete two-line content. -/
theorem C9_context_extraction_witness :
    4 ≤ ("ab\ncd\nef".toList).length ∧
    (∃ ls le : Nat,
      ls ≤ 4 ∧ 4 ≤ le ∧ le ≤ ("ab\ncd\nef".toList).length ∧
      ((∀ i : Nat, i < 4 → ("ab\ncd\nef".toList).get? i ≠ some '\n') → ls = 4) ∧
      (∀ j : Nat, rfindNl "ab\ncd\nef".toList 4 = some j →
        ls = j ∧ ("ab\ncd\nef".toList).get? j = some '\n' ∧
          ∀ i : Nat, j < i → i < 4 → ("ab\ncd\nef".toList).get? i ≠ some '\n') ∧
      ((∀ i : Nat, 4 + 1 ≤ i → ("ab\ncd\nef".toList).get? i ≠ some '\n') → le = 4) ∧
      (∀ j : Nat, findNlFrom "ab\ncd\nef".toList (4 + 1) = some j →
        le = j ∧ ("ab\ncd\nef".toList).get? j = some '\n' ∧
          ∀ i : Nat, 4 + 1 ≤ i → i < j → ("ab\ncd\nef".toList).get? i ≠ some '\n') ∧
      ((200 < (pyStrip ((("ab\ncd\nef".toList).drop ls).take (le - ls))).length →
          getCodeContext "ab\ncd\nef".toList 4 1 1 =
            (pyStrip ((("ab\ncd\nef".toList).drop ls).take (le - ls))).take 200 ++
              "...".toList ∧
          (getCodeContext "ab\ncd\nef".toList 4 1 1).length = 203) ∧
       ((pyStrip ((("ab\ncd\nef".toList).drop ls).take (le - ls))).length ≤ 200 →
          getCodeContext "ab\ncd\nef".toList 4 1 1 =
            pyStrip ((("ab\ncd\nef".toList).drop ls).take (le - ls))))) :=
  ⟨by decide, C9_context_extraction "ab\ncd\nef".toList 4 (by decide)⟩

/-- Consume `\s*` then require `(`, returning the rest (part of the
pattern `open\s*\(`). -/
def wsThenParenRest : List Char → Option (List Char)
  | [] => none
  | c :: r => if c == '(' then some r else if pyIsSpace c then wsThenParenRest r else none

/-- `[^)]*\.\./`: scan forward over non-`)` characters looking for
`../`. -/
def dotsBeforeParen : List Char → Bool
  | [] => false
  | c :: r =>
    if List.isPrefixOf "../".toList (c :: r) then true
    else if c == ')' then false
    else dotsBeforeParen r

/-- Matcher at a fixed position for the alternative
`open\s*\([^)]*\.\./` of the file-operations pattern. -/
def openTraversalAt (l : List Char) : Bool :=
  List.isPrefixOf "open".toList l &&
    (match wsThenParenRest (l.drop 4) with
     | some r => dotsBeforeParen r
     | none => false)

/-- `re.search(r'open\s*\([^)]*\.\./|/tmp/|/etc/|/var/', content)`. -/
def fileOpsMatch (c : List Char) : Bool :=
  searchPos openTraversalAt c || containsSub "/tmp/".toList c ||
    containsSub "/etc/".toList c || containsSub "/var/".toList c

/-- Python truthiness-based `or` on ints: `a or b` keeps `a` unless it is
the falsy `0`. -/
def pyOrInt (a b : Int) : Int := if a = 0 then b else a

/-- Python prefix slice `content[:i]`, including negative-index
semantics (`content[:-1]` drops the last character). -/
def pyPrefixSlice (c : List Char) (i : Int) : List Char :=
  let j : Int := if i < 0 then (c.length : Int) + i else i
  c.take j.toNat

/-- The fallback chain
`content.find('../') or content.find('/tmp/') or content.find('/etc/')`
of `_check_file_operations`. -/
def fileOpsChain (c : List Char) : Int :=
  pyOrInt (pyFindInt "../".toList c)
    (pyOrInt (pyFindInt "/tmp/".toList c) (pyFindInt "/etc/".toList c))

/-- `line_num = content[:line_num].count('\n') + 1 if line_num else 0`. -/
def fileOpsLineNum (c : List Char) : Int :=
  if fileOpsChain c ≠ 0 then ((pyPrefixSlice c (fileOpsChain c)).count '\n' : Int) + 1
  else 0

/-- Per-file body of `_check_file_operations`: at most one HIGH "File
Operations" finding per Python file. -/
def checkFileOpsFile (c : List Char) (relPath : String) : List Finding :=
  if fileOpsMatch c then
    [{ severity := Severity.high
       category := "File Operations"
       title := "Suspicious file path access"
       description := "File access to paths outside skill directory"
       location := relPath ++ ":" ++ toString (fileOpsLineNum c)
       evidence := none
       impact := "Could access/modify files outside skill scope" }]
  else []

lemma findSubIdx_zero (sub l : List Char) (h : findSubIdx sub l = some 0) :
    List.isPrefixOf sub l = true := by
  cases l with
  | nil =>
    simp only [findSubIdx] at h
    by_cases hp : List.isPrefixOf sub [] = true
    · exact hp
    · simp [hp] at h
  | cons c r =>
    simp only [findSubIdx] at h
    by_cases hp : List.isPrefixOf sub (c :: r) = true
    · exact hp
    · simp only [hp, Bool.false_eq_true, if_false] at h
      rcases hg : findSubIdx sub r with _ | k
      · rw [hg] at h
        simp at h
      · rw [hg] at h
        simp at h

lemma pyFindInt_zero (sub c : List Char) (h : pyFindInt sub c = 0) :
    List.isPrefixOf sub c = true := by
  unfold pyFindInt at h
  rcases hg : findSubIdx sub c with _ | i
  · rw [hg] at h
    exact absurd h (by decide)
  · rw [hg] at h
    dsimp only at h
    have hi : i = 0 := by exact_mod_cast h
    subst hi
    exact findSubIdx_zero sub c hg

lemma prefix_head {a : Char} {s l : List Char}
    (h : List.isPrefixOf (a :: s) l = true) :
    ∃ t, l = a :: t ∧ List.isPrefixOf s t = true := by
  cases l with
  | nil => simp [List.isPrefixOf] at h
  | cons d t =>
    simp only [List.isPrefixOf, Bool.and_eq_true, beq_iff_eq] at h
    obtain ⟨h1, h2⟩ := h
    exact ⟨t, by rw [h1], h2⟩

lemma fileOpsChain_ne (c : List Char) : fileOpsChain c ≠ 0 := by
  unfold fileOpsChain pyOrInt
  by_cases ha : pyFindInt "../".toList c = 0
  · rw [if_pos ha]
    by_cases hb : pyFindInt "/tmp/".toList c = 0
    · exfalso
      obtain ⟨t1, he1, _⟩ := prefix_head (pyFindInt_zero _ _ ha)
      obtain ⟨t2, he2, _⟩ := prefix_head (pyFindInt_zero _ _ hb)
      rw [he1] at he2
      injection he2 with hh _
      exact absurd hh (by decide)
    · rw [if_neg hb]
      exact hb
  · rw [if_neg ha]
    exact ha

lemma fileOpsLineNum_pos (c : List Char) : 1 ≤ fileOpsLineNum c := by
  unfold fileOpsLineNum
  rw [if_pos (fileOpsChain_ne c)]
  have := Int.ofNat_nonneg ((pyPrefixSlice c (fileOpsChain c)).count '\n')
  omega

/-- C10 counterexample: contrary to the claim that the check "can report
line number 0", the reported line number is never 0 on any content: the
`else 0` branch is dead, because the falsy-zero fallback chain can never
evaluate to 0 (two distinct literal substrings cannot both start at
offset 0, and a failed `find` yields the truthy `-1`). -/
theorem C10_counterexample : ¬ ∃ c : List Char, fileOpsLineNum c = 0 := by
  rintro ⟨c, hc⟩
  have := fileOpsLineNum_pos c
  omega

/-- C10 as amended: at most one HIGH "File Operations" finding is
emitted per Python file no matter how many risky paths it contains; the
line number comes from the falsy-zero fallback chain: if `../` is absent
the truthy `-1` is used as a slice offset and the number of the file's
last line is reported; if `../` occurs first at a positive offset its
line is reported; if `../` occurs at offset 0 the chain falls through to
the `/tmp/` search (whose result, `-1` included, is then used — the
`/etc/` search is unreachable in that case); and the reported line
number is never 0. -/
theorem C10_file_ops (c : List Char) (relPath : String) :
    (checkFileOpsFile c relPath).length ≤ 1 ∧
    (∀ f ∈ checkFileOpsFile c relPath,
      f.severity = Severity.high ∧ f.category = "File Operations") ∧
    1 ≤ fileOpsLineNum c ∧
    (pyFindInt "../".toList c = -1 →
      fileOpsLineNum c = (lineNumber c (c.length - 1) : Int)) ∧
    (∀ k : Nat, 0 < k → pyFindInt "../".toList c = (k : Int) →
      fileOpsLineNum c = (lineNumber c k : Int)) ∧
    (pyFindInt "../".toList c = 0 →
      fileOpsChain c =
        pyOrInt (pyFindInt "/tmp/".toList c) (pyFindInt "/etc/".toList c) ∧
      (pyFindInt "/tmp/".toList c = -1 →
        fileOpsLineNum c = (lineNumber c (c.length - 1) : Int)) ∧
      (∀ k : Nat, 0 < k → pyFindInt "/tmp/".toList c = (k : Int) →
        fileOpsLineNum c = (lineNumber c k : Int))) := by
  have hsliceNeg : pyPrefixSlice c (-1) = c.take (c.length - 1) := by
    unfold pyPrefixSlice
    have hj : ((c.length : Int) + (-1)).toNat = c.length - 1 := by omega
    simp only [if_pos (by omega : (-1 : Int) < 0)]
    rw [hj]
  have hsliceNat : ∀ k : Nat, pyPrefixSlice c (k : Int) = c.take k := by
    intro k
    unfold pyPrefixSlice
    rw [if_neg (by omega : ¬((k : Int) < 0))]
    simp
  have hlineNeg : fileOpsChain c = -1 →
      fileOpsLineNum c = (lineNumber c (c.length - 1) : Int) := by
    intro hch
    unfold fileOpsLineNum
    rw [if_pos (fileOpsChain_ne c), hch, hsliceNeg]
    unfold lineNumber
    push_cast
    ring
  have hlineNat : ∀ k : Nat, fileOpsChain c = (k : Int) → 0 < k →
      fileOpsLineNum c = (lineNumber c k : Int) := by
    intro k hch hk
    unfold fileOpsLineNum
    rw [if_pos (fileOpsChain_ne c), hch, hsliceNat k]
    unfold lineNumber
    push_cast
    ring
  refine ⟨?_, ?_, fileOpsLineNum_pos c, ?_, ?_, ?_⟩
  · unfold checkFileOpsFile
    split <;> simp
  · intro f hf
    unfold checkFileOpsFile at hf
    split at hf
    · simp only [List.mem_singleton] at hf
      subst hf
      exact ⟨rfl, rfl⟩
    · simp at hf
  · intro ha
    apply hlineNeg
    unfold fileOpsChain pyOrInt
    rw [ha]
    rw [if_neg (by decide : ¬(-1 : Int) = 0)]
  · intro k hk ha
    apply hlineNat k ?_ hk
    unfold fileOpsChain pyOrInt
    rw [ha]
    rw [if_neg (by omega : ¬((k : Int) = 0))]
  · intro ha
    have hchain : fileOpsChain c =
        pyOrInt (pyFindInt "/tmp/".toList c) (pyFindInt "/etc/".toList c) := by
      unfold fileOpsChain
      rw [show pyOrInt (pyFindInt "../".toList c)
          (pyOrInt (pyFindInt "/tmp/".toList c) (pyFindInt "/etc/".toList c)) =
          if pyFindInt "../".toList c = 0 then
            pyOrInt (pyFindInt "/tmp/".toList c) (pyFindInt "/etc/".toList c)
          else pyFindInt "../".toList c from rfl]
      rw [if_pos ha]
    refine ⟨hchain, ?_, ?_⟩
    · intro hb
      apply hlineNeg
      rw [hchain]
      unfold pyOrInt
      rw [hb]
      rw [if_neg (by decide : ¬(-1 : Int) = 0)]
    · intro k hk hb
      apply hlineNat k ?_ hk
      rw [hchain]
      unfold pyOrInt
      rw [hb]
      rw [if_neg (by omega : ¬((k : Int) = 0))]

/-- Witness for C10 as amended: content with `../` at offset 0 and
`/tmp/` on the second line reports the line of `/tmp/`, and the content
with no `../` at all reports the last line. -/
theorem C10_file_ops_witness :
    (∀ f ∈ checkFileOpsFile "x\n/tmp/a".toList "s.py",
      f.severity = Severity.high ∧ f.category = "File Operations") ∧
    (pyFindInt "../".toList "x\n/tmp/a".toList = -1 ∧
      fileOpsLineNum "x\n/tmp/a".toList =
        (lineNumber "x\n/tmp/a".toList ("x\n/tmp/a".toList.length - 1) : Int)) ∧
    (pyFindInt "../".toList "../\n/tmp/a".toList = 0 ∧
      pyFindInt "/tmp/".toList "../\n/tmp/a".toList = (4 : Nat) ∧
      fileOpsLineNum "../\n/tmp/a".toList =
        (lineNumber "../\n/tmp/a".toList 4 : Int)) :=
  ⟨(C10_file_ops "x\n/tmp/a".toList "s.py").2.1,
   ⟨by decide,
    (C10_file_ops "x\n/tmp/a".toList "s.py").2.2.2.1 (by decide)⟩,
   ⟨by decide, by decide,
    ((C10_file_ops "../\n/tmp/a".toList "s.py").2.2.2.2.2 (by decide)).2.2 4
      (by decide) (by decide)⟩⟩

end SecurityScanner
